import Mathlib

/-!
Verification development for the `ansible-collection-vultr` reconciliation
engine (`plugins/module_utils/vultr_v2.py`).

The development has two layers mirroring the two responsibilities of the
source module:

* the low-level retrying HTTP client `AnsibleVultr.api_query` (the
  `fetch_url` loop with exponential backoff on 429), embedded as
  `fetchLoop` / `api_query_http`;
* the CRUD reconciler (`query`, `query_list`, `create`, `is_diff`,
  `update`, `absent`, `present`, `get_result`), embedded as state-passing
  functions over an abstract transport, with Python dict values modelled
  by `Val` and dicts by association lists.

Machine arithmetic in the backoff computation is over `ℚ` (Python floats
here only ever hold small dyadic/decimal values; no overflow or rounding
is exercised by the code paths modelled).
-/

namespace VultrV2

/-! ### Part A: the resilient API client (`api_query`) -/

/-- `VULTR_USER_AGENT` from the source. -/
def VULTR_USER_AGENT : String := "Ansible Vultr v2"

/-- `randomness = random.randint(0, 1000) / 1000.0`: the jitter value
produced by draw `k`, where `random.randint(0, 1000)` returns an integer
`k` with `0 ≤ k ≤ 1000` (both bounds inclusive). -/
def randomnessOf (k : Nat) : ℚ := (k : ℚ) / 1000

/-- The backoff delay for a 429 response at zero-based retry index `retry`:
`delay = 2 ** retry + randomness; if delay > retry_max_delay: delay =
retry_max_delay + randomness`. -/
def sleepDelay (retry : Nat) (retry_max_delay : Nat) (randomness : ℚ) : ℚ :=
  let delay : ℚ := 2 ^ retry + randomness
  if delay > (retry_max_delay : ℚ) then (retry_max_delay : ℚ) + randomness else delay

/-- Observable trace of one run of the `for retry in range(0, api_retries)`
loop of `api_query`: how many `fetch_url` requests were issued, the sleeps
performed (in order), and the attempt index of the last request issued
(`none` when no request was issued at all, i.e. `api_retries = 0`, in which
case the Python code would crash reading the unbound `info`). -/
structure LoopRun where
  requests : Nat
  sleeps : List ℚ
  finalIdx : Option Nat
deriving DecidableEq, Repr

/-- The retry loop of `api_query`, parameterised by the status of each
attempt (`statusAt n` = HTTP status of the response to the `n`-th request).
`fuel` is the number of loop iterations left, `attempt` the current
zero-based retry index, `last` the index of the previous request. -/
def fetchLoopAux (statusAt : Nat → Nat) (rmd : Nat) (j : ℚ) :
    Nat → Nat → Option Nat → LoopRun
  | 0, _, last => ⟨0, [], last⟩
  | fuel + 1, attempt, _ =>
    if statusAt attempt ≠ 429 then ⟨1, [], some attempt⟩
    else
      let rest := fetchLoopAux statusAt rmd j fuel (attempt + 1) (some attempt)
      ⟨rest.requests + 1, sleepDelay attempt rmd j :: rest.sleeps, rest.finalIdx⟩

/-- `for retry in range(0, self.module.params['api_retries']): ...` -/
def fetchLoop (statusAt : Nat → Nat) (retries rmd : Nat) (j : ℚ) : LoopRun :=
  fetchLoopAux statusAt rmd j retries 0 none

/-- Outcome of one `api_query` call. `json` carries the decoded body of a
200/201 response, `nothing` is the Python `None` returned for 404/204,
`failed` is `module.fail_json(msg=..., fetch_url_info=info)`, and `crash`
is the unbound-variable error when the loop body never ran. -/
inductive ApiResult (γ ι : Type) where
  | json (v : γ)
  | nothing
  | failed (msg : String) (fetch_url_info : ι)
  | crash

/-- The failure message of `api_query`:
`'Failure while calling the Vultr API v2 with %s for "%s".' % (method, path)`. -/
def failMsg (method path : String) : String :=
  "Failure while calling the Vultr API v2 with " ++ method ++ " for \"" ++ path ++ "\"."

/-- `AnsibleVultr.api_query` at the HTTP level. `infos n` is the transport
info dict of the `n`-th attempt, `status` reads `info['status']`,
`bodies n` is `resp.read()` for the `n`-th attempt and `from_json` is
`self.module.from_json` composed with `to_text`. -/
def api_query_http {β γ ι : Type} (infos : Nat → ι) (status : ι → Nat)
    (bodies : Nat → β) (from_json : β → γ)
    (retries rmd : Nat) (j : ℚ) (method path : String) : ApiResult γ ι :=
  let run := fetchLoop (fun n => status (infos n)) retries rmd j
  match run.finalIdx with
  | none => .crash
  | some i =>
    if status (infos i) = 200 ∨ status (infos i) = 201 then
      .json (from_json (bodies i))
    else if status (infos i) = 404 ∨ status (infos i) = 204 then
      .nothing
    else
      .failed (failMsg method path) (infos i)

/-! ### Part B: values, dicts, and the diff predicate -/

/-- Scalar Python/JSON values (the element type of list-valued fields). -/
inductive Atom where
  | str (s : String)
  | int (n : Int)
  | bool (b : Bool)
deriving DecidableEq, Repr

/-- A Python value as used for module parameters and resource fields:
`None`, a scalar, or a list of scalars. -/
inductive Val where
  | null
  | atom (a : Atom)
  | list (l : List Atom)
deriving DecidableEq, Repr

/-- A resource (a Python dict with string keys), as an association list in
insertion order; keys are unique in a dict so the first binding wins. -/
abbrev Resource := List (String × Val)

/-- Python `d[k]` / `d.get(k)` (as an `Option`). -/
def dictGet (d : Resource) (k : String) : Option Val :=
  match d with
  | [] => Option.none
  | (k', v) :: rest => if k' = k then some v else dictGet rest k

/-- Python `d[k] = v`: overwrite in place, or append a new binding. -/
def dictSet (d : Resource) (k : String) (v : Val) : Resource :=
  if d.any (fun kv => kv.1 = k) then
    d.map (fun kv => if kv.1 = k then (k, v) else kv)
  else d ++ [(k, v)]

/-- Python `d.update(data)`. -/
def dictUpdate (d data : Resource) : Resource :=
  List.foldl (fun acc kv => dictSet acc kv.1 kv.2) d data

/-- Python `"%s" % a` for a scalar. -/
def Atom.pyStr : Atom → String
  | .str s => s
  | .int n => toString n
  | .bool b => if b then "True" else "False"

/-- Python `repr(a)` for a scalar (used inside list display). -/
def Atom.pyRepr : Atom → String
  | .str s => "'" ++ s ++ "'"
  | .int n => toString n
  | .bool b => if b then "True" else "False"

/-- Python `"%s" % v`. -/
def Val.pyStr : Val → String
  | .null => "None"
  | .atom a => a.pyStr
  | .list l => "[" ++ String.intercalate ", " (l.map Atom.pyRepr) ++ "]"

/-- Python `v in c`: list membership, or substring test when both sides
are strings; `none` encodes the `TypeError` raised for a non-container
right operand (or a non-string left operand against a string). -/
def valMem (v : Atom) (c : Val) : Option Bool :=
  match c with
  | .list l => some (decide (v ∈ l))
  | .atom (Atom.str s) =>
    match v with
    | .str t => some (decide (t.data <:+: s.data))
    | _ => Option.none
  | _ => Option.none

/-- The inner `for v in value: if v not in resource[key]: return True` loop
of `is_diff`; `resource[key]` is evaluated afresh for each element, so an
empty proposed list never touches the resource. `some true` = found a
non-member (the Python returns `True`), `some false` = loop completed,
`none` = `KeyError`/`TypeError`. -/
def is_diff_elems (resource : Resource) (key : String) : List Atom → Option Bool
  | [] => some false
  | v :: vs =>
    match dictGet resource key with
    | Option.none => Option.none
    | some c =>
      match valMem v c with
      | Option.none => Option.none
      | some true => is_diff_elems resource key vs
      | some false => some true

/-- `AnsibleVultr.is_diff`. `some b` is the Python return value, `none`
encodes an uncaught exception (`KeyError` for a missing resource key,
`TypeError` for an unsupported membership test). -/
def is_diff (data resource : Resource) : Option Bool :=
  match data with
  | [] => some false
  | (key, value) :: rest =>
    match value with
    | .null => is_diff rest resource
    | .list l =>
      match is_diff_elems resource key l with
      | Option.none => Option.none
      | some true => some true
      | some false => is_diff rest resource
    | v =>
      match dictGet resource key with
      | Option.none => Option.none
      | some c => if c = v then is_diff rest resource else some true

/-- Precondition under which `is_diff` is exception-free: every managed
(non-`None`) scalar key resolves in the resource, and every element of a
managed list value supports the membership test against the resolved
field (an empty list needs nothing, since `resource[key]` is only
evaluated inside the element loop). -/
def diffKeyOk (resource : Resource) (kv : String × Val) : Bool :=
  match kv.2 with
  | .null => true
  | .list l => l.all (fun x =>
      match dictGet resource kv.1 with
      | some c => (valMem x c).isSome
      | Option.none => false)
  | _ => (dictGet resource kv.1).isSome

/-- All keys of the proposed body are exception-free against `resource`. -/
def diffDefined (data resource : Resource) : Bool :=
  data.all (diffKeyOk resource)

/-- The diff predicate as worded in the spec: some key of the proposed
body has a non-absent value which is either a sequence with an element
not contained in the corresponding current field, or a scalar unequal to
the current field value. -/
def is_diff_spec (data resource : Resource) : Bool :=
  data.any fun kv =>
    match kv.2 with
    | Val.null => false
    | Val.list l => l.any fun x =>
        valMem x ((dictGet resource kv.1).getD Val.null) == some false
    | v => !((dictGet resource kv.1).getD Val.null == v)

/-! ### Part B: the reconciler -/

/-- Per-adapter resource descriptor: the constructor arguments of
`AnsibleVultr.__init__` after its defaulting (`ressource_result_key_plural
or "%ss" % singular`, etc.). -/
structure Descriptor where
  namespaceKey : String
  resource_path : String
  ressource_result_key_singular : String
  ressource_result_key_plural : String
  resource_key_name : String
  resource_key_id : String
  resource_get_details : Bool
  resource_create_param_keys : List String
  resource_update_param_keys : List String
  resource_update_method : String
deriving DecidableEq, Repr

/-- Module-level configuration and desired state: `self.module.params`
plus `self.module.check_mode`. -/
structure Params where
  api_endpoint : String
  api_key : String
  api_timeout : Nat
  api_retries : Nat
  api_retry_max_delay : Nat
  resourceParams : Resource
  check_mode : Bool
deriving DecidableEq, Repr

/-- One engine instance: descriptor plus module context. -/
structure Ctx where
  desc : Descriptor
  params : Params
deriving DecidableEq, Repr

/-- The `vultr_api` echo block placed into `self.result` by `__init__`:
exactly timeout, retries, retry max delay and endpoint. -/
structure VultrApiEcho where
  api_timeout : Nat
  api_retries : Nat
  api_retry_max_delay : Nat
  api_endpoint : String
deriving DecidableEq, Repr

/-- The mutable `self.result` dict (without the namespace payload, which
`get_result` fills in last). -/
structure RState where
  changed : Bool
  diffBefore : Resource
  diffAfter : Resource
  vultr_api : VultrApiEcho
deriving DecidableEq, Repr

/-- `self.result = {'changed': False, namespace: dict(), 'diff':
dict(before=dict(), after=dict()), 'vultr_api': {...}}`. -/
def initResult (p : Params) : RState :=
  ⟨false, [], [], ⟨p.api_timeout, p.api_retries, p.api_retry_max_delay, p.api_endpoint⟩⟩

/-- `self.headers`. -/
def mkHeaders (p : Params) : List (String × String) :=
  [("Authorization", "Bearer " ++ p.api_key),
   ("User-Agent", VULTR_USER_AGENT),
   ("Accept", "application/json")]

/-- One logical HTTP request as handed to `fetch_url`. -/
structure Req where
  url : String
  method : String
  data : Option Resource
  headers : List (String × String)
  timeout : Nat
deriving DecidableEq, Repr

/-- A value of the JSON envelope object returned by the API: a single
resource object, or an array of resource objects (the only two shapes the
engine ever unwraps). -/
inductive EnvVal where
  | res (r : Resource)
  | resList (rs : List Resource)
deriving DecidableEq, Repr

/-- Python `env[k]` / `env.get(k)` on an envelope. -/
def envGet (env : List (String × EnvVal)) (k : String) : Option EnvVal :=
  match env with
  | [] => Option.none
  | (k', v) :: rest => if k' = k then some v else envGet rest k

/-- Outcome of one logical `api_query` call as the reconciler observes it
(the retry loop of Part A lives below this interface): the decoded JSON
envelope of a 200/201, the `None` of a 404/204, or the `fail_json` abort
for any other final status. -/
inductive QueryOutcome where
  | body (env : List (String × EnvVal))
  | nothing
  | failure
deriving DecidableEq, Repr

/-- The remote side: one classified response per logical request. -/
abbrev Transport := Req → QueryOutcome

/-- The `fetch_url` request built by `api_query`: endpoint + path, the
HTTP method, the jsonified body, the bearer/user-agent/accept headers and
the configured timeout. -/
def mkReq (ctx : Ctx) (path method : String) (data : Option Resource) : Req :=
  ⟨ctx.params.api_endpoint ++ path, method, data,
    mkHeaders ctx.params, ctx.params.api_timeout⟩

/-- `AnsibleVultr.api_query`, reconciler view: build the request and
classify the response. Returns the request issued with the outcome. -/
def api_query (ctx : Ctx) (t : Transport) (path method : String)
    (data : Option Resource) : Req × QueryOutcome :=
  (mkReq ctx path method data, t (mkReq ctx path method data))

/-- Result of one reconciler step: a value, or an abort (`fail_json` or
an uncaught Python exception). -/
inductive EngR (α : Type) where
  | ok (v : α)
  | err
deriving DecidableEq, Repr

/-- The id branch of `AnsibleVultr.query`: `GET` on
`resource_path + ("/" + id if id else id)`, unwrap a truthy response via
the singular result key (the envelope is expected to hold a resource
object there; `err` models the `KeyError` when it is missing), return an
empty dict when the response was `None` or falsy. -/
def query_by_id (ctx : Ctx) (t : Transport) (resource_id : String) :
    List Req × EngR Resource :=
  let path := ctx.desc.resource_path ++
    (if resource_id ≠ "" then "/" ++ resource_id else resource_id)
  let (req, out) := api_query ctx t path "GET" Option.none
  match out with
  | .body env =>
    if env ≠ [] then
      match envGet env ctx.desc.ressource_result_key_singular with
      | some (.res r) => ([req], .ok r)
      | _ => ([req], .err)
    else ([req], .ok [])
  | .nothing => ([req], .ok [])
  | .failure => ([req], .err)

/-- `AnsibleVultr.query_list`: `return resources[plural] if resources
else []`. -/
def query_list (ctx : Ctx) (t : Transport) : List Req × EngR (List Resource) :=
  let (req, out) := api_query ctx t ctx.desc.resource_path "GET" Option.none
  match out with
  | .body env =>
    if env ≠ [] then
      match envGet env ctx.desc.ressource_result_key_plural with
      | some (.resList rs) => ([req], .ok rs)
      | _ => ([req], .err)
    else ([req], .ok [])
  | .nothing => ([req], .ok [])
  | .failure => ([req], .err)

/-- The linear scan of the no-id branch of `query`: first list entry whose
name field equals the desired name parameter (Python `.get` on both sides,
`None` for missing); on a match, either return it or re-resolve by id when
`resource_get_details` is set. -/
def queryScan (ctx : Ctx) (t : Transport) : List Resource → List Req × EngR Resource
  | [] => ([], .ok [])
  | r :: rs =>
    if (dictGet r ctx.desc.resource_key_name).getD Val.null =
        (dictGet ctx.params.resourceParams ctx.desc.resource_key_name).getD Val.null then
      if ctx.desc.resource_get_details then
        match dictGet r ctx.desc.resource_key_id with
        | some idv => query_by_id ctx t idv.pyStr
        | Option.none => ([], .err)
      else ([], .ok r)
    else queryScan ctx t rs

/-- `AnsibleVultr.query`. -/
def query (ctx : Ctx) (t : Transport) (resource_id : Option String) :
    List Req × EngR Resource :=
  match resource_id with
  | some rid => query_by_id ctx t rid
  | Option.none =>
    match query_list ctx t with
    | (log, .ok rs) =>
      let (log2, res) := queryScan ctx t rs
      (log ++ log2, res)
    | (log, .err) => (log, .err)

/-- The Python value returned by `create`: a resource dict, a list (when
the envelope's singular key unexpectedly holds an array), or `None` (the
`dict.get` default when a truthy envelope lacks the singular key). -/
inductive PyRes where
  | pres (r : Resource)
  | plist (rs : List Resource)
  | pnone
deriving DecidableEq, Repr

/-- Python truthiness of a `create` return value. -/
def PyRes.truthy : PyRes → Bool
  | .pres r => r ≠ []
  | .plist rs => rs ≠ []
  | .pnone => false

/-- The create request body: `create_param_keys` read off the desired
state (`module.params.get`, so a missing parameter contributes `None`). -/
def createData (ctx : Ctx) : Resource :=
  ctx.desc.resource_create_param_keys.map
    (fun param => (param, (dictGet ctx.params.resourceParams param).getD Val.null))

/-- The bookkeeping `create` applies to `self.result`: `changed := true`,
empty before-diff, the create body as after-diff. -/
def createSt (ctx : Ctx) (st : RState) : RState :=
  { st with changed := true, diffBefore := [], diffAfter := createData ctx }

/-- `AnsibleVultr.create`. -/
def create (ctx : Ctx) (t : Transport) (st : RState) :
    List Req × EngR (RState × PyRes) :=
  let data : Resource := createData ctx
  let st2 : RState := createSt ctx st
  if ctx.params.check_mode then
    ([], .ok (st2, .pres []))
  else
    let (req, out) := api_query ctx t ctx.desc.resource_path "POST" (some data)
    match out with
    | .failure => ([req], .err)
    | .nothing => ([req], .ok (st2, .pres []))
    | .body env =>
      if env ≠ [] then
        match envGet env ctx.desc.ressource_result_key_singular with
        | some (.res r) => ([req], .ok (st2, .pres r))
        | some (.resList rs) => ([req], .ok (st2, .plist rs))
        | Option.none => ([req], .ok (st2, .pnone))
      else ([req], .ok (st2, .pres []))

/-- The update request body: `update_param_keys` read off the desired
state (`module.params.get`, so a missing parameter contributes `None`). -/
def updateData (ctx : Ctx) : Resource :=
  ctx.desc.resource_update_param_keys.map
    (fun param => (param, (dictGet ctx.params.resourceParams param).getD Val.null))

/-- The bookkeeping `update` applies to `self.result` when a diff exists:
`changed := true`, the full current snapshot as before-diff, the snapshot
merged with the update body as after-diff. -/
def updateSt (ctx : Ctx) (st : RState) (resource : Resource) : RState :=
  { st with changed := true, diffBefore := resource, diffAfter := dictUpdate resource (updateData ctx) }

/-- `AnsibleVultr.update`. -/
def update (ctx : Ctx) (t : Transport) (st : RState) (resource : Resource) :
    List Req × EngR (RState × Resource) :=
  let data := updateData ctx
  match is_diff data resource with
  | Option.none => ([], .err)
  | some false => ([], .ok (st, resource))
  | some true =>
    let st2 : RState := updateSt ctx st resource
    if ctx.params.check_mode then
      ([], .ok (st2, resource))
    else
      match dictGet resource ctx.desc.resource_key_id with
      | Option.none => ([], .err)
      | some idv =>
        let (wreq, wout) := api_query ctx t
          (ctx.desc.resource_path ++ "/" ++ idv.pyStr)
          ctx.desc.resource_update_method (some data)
        match wout with
        | .failure => ([wreq], .err)
        | _ =>
          match query_by_id ctx t idv.pyStr with
          | (log2, .ok r2) => (wreq :: log2, .ok (st2, r2))
          | (log2, .err) => (wreq :: log2, .err)

/-- The structured result emitted by `module.exit_json(**self.result)`. -/
structure FinalResult where
  changed : Bool
  namespaceKey : String
  payload : PyRes
  diffBefore : Resource
  diffAfter : Resource
  vultr_api : VultrApiEcho
deriving DecidableEq, Repr

/-- `AnsibleVultr.get_result`: place the final resource under the
namespace key and exit with the accumulated result. -/
def get_result (ctx : Ctx) (st : RState) (resource : PyRes) : FinalResult :=
  ⟨st.changed, ctx.desc.namespaceKey, resource, st.diffBefore, st.diffAfter, st.vultr_api⟩

/-- Outcome of a whole `present`/`absent` invocation: exactly one emitted
result, or an abort. -/
inductive RunOutcome where
  | exited (f : FinalResult)
  | aborted
deriving DecidableEq, Repr

/-- `AnsibleVultr.absent`. -/
def absent (ctx : Ctx) (t : Transport) : List Req × RunOutcome :=
  let st := initResult ctx.params
  match query ctx t Option.none with
  | (log, .err) => (log, .aborted)
  | (log, .ok resource) =>
    if resource = [] then (log, .exited (get_result ctx st (.pres resource)))
    else
      let st2 : RState :=
        { st with changed := true, diffBefore := resource, diffAfter := [] }
      if ctx.params.check_mode then
        (log, .exited (get_result ctx st2 (.pres resource)))
      else
        match dictGet resource ctx.desc.resource_key_id with
        | Option.none => (log, .aborted)
        | some idv =>
          let (wreq, wout) := api_query ctx t
            (ctx.desc.resource_path ++ "/" ++ idv.pyStr) "DELETE" Option.none
          match wout with
          | .failure => (log ++ [wreq], .aborted)
          | _ => (log ++ [wreq], .exited (get_result ctx st2 (.pres resource)))

/-- `AnsibleVultr.present`. -/
def present (ctx : Ctx) (t : Transport) : List Req × RunOutcome :=
  let st := initResult ctx.params
  match query ctx t Option.none with
  | (log, .err) => (log, .aborted)
  | (log, .ok resource) =>
    if resource = [] then
      match create ctx t st with
      | (log2, .err) => (log ++ log2, .aborted)
      | (log2, .ok (st2, cres)) =>
        if cres.truthy && ctx.desc.resource_get_details then
          match cres with
          | .pres r =>
            match dictGet r ctx.desc.resource_key_id with
            | some idv =>
              match query_by_id ctx t idv.pyStr with
              | (log3, .ok r2) =>
                (log ++ log2 ++ log3, .exited (get_result ctx st2 (.pres r2)))
              | (log3, .err) => (log ++ log2 ++ log3, .aborted)
            | Option.none => (log ++ log2, .aborted)
          | _ => (log ++ log2, .aborted)
        else (log ++ log2, .exited (get_result ctx st2 cres))
    else
      match update ctx t st resource with
      | (log2, .err) => (log ++ log2, .aborted)
      | (log2, .ok (st2, r2)) => (log ++ log2, .exited (get_result ctx st2 (.pres r2)))

/-! ### Concrete fixtures (closed inputs used to exercise the engine) -/

/-- A small concrete descriptor (an ssh-key-like adapter). -/
def sampleDesc : Descriptor :=
  ⟨"vultr_ssh_key", "/ssh-keys", "ssh_key", "ssh_keys", "name", "id", false,
    ["name", "ssh_key"], ["name", "ssh_key"], "PATCH"⟩

/-- Concrete module parameters (desired state `name=k1, ssh_key=AAAA`). -/
def sampleParams : Params :=
  ⟨"https://api.vultr.com/v2", "TESTKEY", 60, 5, 12,
    [("name", Val.atom (Atom.str "k1")), ("ssh_key", Val.atom (Atom.str "AAAA"))], false⟩

/-- The same parameters with check mode switched on. -/
def sampleParamsCheck : Params := { sampleParams with check_mode := true }

/-- A concrete remote resource matching the desired state. -/
def sampleResource : Resource :=
  [("id", Val.atom (Atom.str "x1")), ("name", Val.atom (Atom.str "k1")),
   ("ssh_key", Val.atom (Atom.str "AAAA"))]

/-- A transport serving exactly `sampleResource` for list and id reads,
and answering anything else with an empty 204/404-style response. -/
def sampleTransport : Transport := fun req =>
  if req.method = "GET" then
    if req.url = "https://api.vultr.com/v2/ssh-keys" then
      .body [("ssh_keys", .resList [sampleResource])]
    else if req.url = "https://api.vultr.com/v2/ssh-keys/x1" then
      .body [("ssh_key", .res sampleResource)]
    else .nothing
  else .nothing

/-- A transport for an empty remote side. -/
def emptyTransport : Transport := fun _ => .nothing

end VultrV2

namespace VultrV2

/-! ### Part A lemmas -/

/-- Unfolding: a non-429 response breaks out of the retry loop. -/
theorem fetchLoopAux_stop (statusAt : Nat → Nat) (rmd : Nat) (j : ℚ)
    (f a : Nat) (last : Option Nat) (h : statusAt a ≠ 429) :
    fetchLoopAux statusAt rmd j (f + 1) a last = ⟨1, [], some a⟩ := by
  simp only [fetchLoopAux]
  rw [if_pos h]

/-- Unfolding: a 429 response sleeps and continues with the next attempt. -/
theorem fetchLoopAux_cont (statusAt : Nat → Nat) (rmd : Nat) (j : ℚ)
    (f a : Nat) (last : Option Nat) (h : statusAt a = 429) :
    fetchLoopAux statusAt rmd j (f + 1) a last =
      ⟨(fetchLoopAux statusAt rmd j f (a + 1) (some a)).requests + 1,
        sleepDelay a rmd j :: (fetchLoopAux statusAt rmd j f (a + 1) (some a)).sleeps,
        (fetchLoopAux statusAt rmd j f (a + 1) (some a)).finalIdx⟩ := by
  simp only [fetchLoopAux]
  rw [if_neg (by simp [h])]

/-- Every sleep performed by the loop follows the backoff formula at its
own attempt index, all with the one jitter value fixed for the whole run. -/
theorem fetchLoopAux_sleeps (statusAt : Nat → Nat) (rmd : Nat) (j : ℚ) :
    ∀ (fuel a : Nat) (last : Option Nat),
      ∃ n, (fetchLoopAux statusAt rmd j fuel a last).sleeps =
        (List.range n).map (fun t => sleepDelay (a + t) rmd j) := by
  intro fuel
  induction fuel with
  | zero => intro a last; exact ⟨0, by simp [fetchLoopAux]⟩
  | succ f ih =>
    intro a last
    by_cases h : statusAt a = 429
    · rw [fetchLoopAux_cont statusAt rmd j f a last h]
      obtain ⟨n, hn⟩ := ih (a + 1) (some a)
      refine ⟨n + 1, ?_⟩
      simp only [hn, List.range_succ_eq_map, List.map_cons, List.map_map, Nat.add_zero]
      congr 1
      apply List.map_congr_left
      intro t _
      simp only [Function.comp_apply, Nat.succ_eq_add_one]
      congr 1
      omega
    · rw [fetchLoopAux_stop statusAt rmd j f a last h]
      exact ⟨0, by simp⟩

theorem fetchLoop_sleeps (statusAt : Nat → Nat) (retries rmd : Nat) (j : ℚ) :
    (fetchLoop statusAt retries rmd j).sleeps =
      (List.range (fetchLoop statusAt retries rmd j).sleeps.length).map
        (fun t => sleepDelay t rmd j) := by
  obtain ⟨n, hn⟩ := fetchLoopAux_sleeps statusAt rmd j retries 0 none
  rw [fetchLoop] at *
  rw [hn]
  simp only [List.length_map, List.length_range, Nat.zero_add]

/-- With `0 ≤ j ≤ 1` and an integral cap, the source's
`delay = 2**retry + r; if delay > cap: delay = cap + r` computes exactly
`min (2^retry + r) (cap + r)`. -/
theorem sleepDelay_eq_min (j : ℚ) (h0 : 0 ≤ j) (h1 : j ≤ 1) (a rmd : Nat) :
    sleepDelay a rmd j = min ((2 : ℚ) ^ a + j) ((rmd : ℚ) + j) := by
  unfold sleepDelay
  by_cases h : (2 : ℚ) ^ a + j > (rmd : ℚ)
  · rw [if_pos h]
    have hcast : ((2 ^ a : ℕ) : ℚ) = (2 : ℚ) ^ a := by push_cast; ring
    have hlt : (rmd : ℚ) < ((2 ^ a + 1 : ℕ) : ℚ) := by
      push_cast
      linarith
    have hnat : rmd < 2 ^ a + 1 := by exact_mod_cast hlt
    have hle : (rmd : ℚ) ≤ (2 : ℚ) ^ a := by
      rw [← hcast]
      exact_mod_cast Nat.lt_succ_iff.mp hnat
    rw [min_eq_right (by linarith)]
  · rw [if_neg h]
    push_neg at h
    rw [min_eq_left (by linarith)]

/-- The backoff delay is monotone non-decreasing in the attempt index. -/
theorem sleepDelay_mono (j : ℚ) (h0 : 0 ≤ j) (a rmd : Nat) :
    sleepDelay a rmd j ≤ sleepDelay (a + 1) rmd j := by
  unfold sleepDelay
  have hpow : (2 : ℚ) ^ a ≤ (2 : ℚ) ^ (a + 1) := by
    have : (1 : ℚ) ≤ 2 := by norm_num
    exact pow_le_pow_right₀ this (Nat.le_succ a)
  by_cases h : (2 : ℚ) ^ a + j > (rmd : ℚ)
  · have h' : (2 : ℚ) ^ (a + 1) + j > (rmd : ℚ) := by linarith
    rw [if_pos h, if_pos h']
  · push_neg at h
    rw [if_neg (not_lt.mpr h)]
    by_cases h' : (2 : ℚ) ^ (a + 1) + j > (rmd : ℚ)
    · rw [if_pos h']
      linarith
    · rw [if_neg h']
      linarith

/-- The backoff delay never exceeds `retry_max_delay + jitter`. -/
theorem sleepDelay_le_cap (j : ℚ) (h0 : 0 ≤ j) (a rmd : Nat) :
    sleepDelay a rmd j ≤ (rmd : ℚ) + j := by
  unfold sleepDelay
  by_cases h : (2 : ℚ) ^ a + j > (rmd : ℚ)
  · rw [if_pos h]
  · push_neg at h
    rw [if_neg (not_lt.mpr h)]
    linarith

/-- Request count for a status sequence of 429s up to attempt `k`
(exclusive) followed by anything non-429. -/
theorem fetchLoopAux_requests_pattern (k s : Nat) (hs : s ≠ 429) (rmd : Nat) (j : ℚ) :
    ∀ (fuel a : Nat) (last : Option Nat), a ≤ k →
      (fetchLoopAux (fun n => if n < k then 429 else s) rmd j fuel a last).requests =
        min (k - a + 1) fuel := by
  intro fuel
  induction fuel with
  | zero => intro a last _; simp [fetchLoopAux]
  | succ f ih =>
    intro a last ha
    by_cases hak : a < k
    · have hst : (if a < k then 429 else s) = 429 := if_pos hak
      rw [fetchLoopAux_cont _ rmd j f a last hst]
      simp only
      rw [ih (a + 1) (some a) hak]
      have hk : k - a + 1 = (k - (a + 1) + 1) + 1 := by omega
      rw [hk, Nat.succ_min_succ]
    · have hst : (if a < k then 429 else s) ≠ 429 := by
        rw [if_neg hak]; exact hs
      rw [fetchLoopAux_stop _ rmd j f a last hst]
      simp only
      have hk : k - a + 1 = 1 := by omega
      rw [hk]
      omega

/-- If the loop body runs at least once, there is a final attempt index `i`
and the number of requests is `i + 1` (counting from start offset `a`). -/
theorem fetchLoopAux_finalIdx (statusAt : Nat → Nat) (rmd : Nat) (j : ℚ) :
    ∀ (fuel a : Nat) (last : Option Nat), 1 ≤ fuel →
      ∃ i, a ≤ i ∧
        (fetchLoopAux statusAt rmd j fuel a last).finalIdx = some i ∧
        (fetchLoopAux statusAt rmd j fuel a last).requests + a = i + 1 := by
  intro fuel
  induction fuel with
  | zero => intro a last h; omega
  | succ f ih =>
    intro a last _
    by_cases h : statusAt a = 429
    · rw [fetchLoopAux_cont statusAt rmd j f a last h]
      rcases Nat.eq_zero_or_pos f with hf | hf
      · subst hf
        refine ⟨a, le_refl a, ?_, ?_⟩ <;> simp [fetchLoopAux] <;> omega
      · obtain ⟨i, hai, hidx, hreq⟩ := ih (a + 1) (some a) hf
        refine ⟨i, by omega, hidx, by simp only; omega⟩
    · rw [fetchLoopAux_stop statusAt rmd j f a last h]
      exact ⟨a, le_refl a, rfl, by simp only; omega⟩

/-- When every response is a 429, the loop exhausts all its fuel. -/
theorem fetchLoopAux_all429 (statusAt : Nat → Nat) (h429 : ∀ n, statusAt n = 429)
    (rmd : Nat) (j : ℚ) :
    ∀ (f a : Nat) (last : Option Nat),
      (fetchLoopAux statusAt rmd j (f + 1) a last).requests = f + 1 ∧
      (fetchLoopAux statusAt rmd j (f + 1) a last).finalIdx = some (a + f) := by
  intro f
  induction f with
  | zero =>
    intro a last
    rw [fetchLoopAux_cont statusAt rmd j 0 a last (h429 a)]
    constructor <;> simp [fetchLoopAux]
  | succ f ih =>
    intro a last
    have hrec := ih (a + 1) (some a)
    rw [fetchLoopAux_cont statusAt rmd j (f + 1) a last (h429 a)]
    refine ⟨by simp only; omega, ?_⟩
    simp only
    rw [hrec.2]
    congr 1
    omega

/-! ### Claim C1 -/

/-- C1, counterexample to the claim as stated: `random.randint(0, 1000)`
includes 1000, so the jitter `randint(0, 1000) / 1000.0` can be exactly
`1.0`, which is not in the half-open interval `[0, 1.0)` asserted by the
claim. -/
theorem C1_jitter_counterexample :
    randomnessOf 1000 = 1 ∧ ¬ randomnessOf 1000 < 1 := by
  constructor
  · norm_num [randomnessOf]
  · norm_num [randomnessOf]

/-- C1 (amended): every possible jitter draw `k ≤ 1000` gives a value in
the closed interval `[0, 1.0]`; with that jitter, the sleep delay at
zero-based retry index `a` equals
`min (2^a + jitter) (retry_max_delay + jitter)`, and the sleeps of one
`api_query` call all use the single jitter value drawn before the loop —
the `i`-th sleep is exactly the formula at attempt `i` with that one
jitter, never re-rolled. -/
theorem C1_backoff_delay (k : Nat) (hk : k ≤ 1000) :
    (0 ≤ randomnessOf k ∧ randomnessOf k ≤ 1) ∧
    (∀ a rmd : Nat,
      sleepDelay a rmd (randomnessOf k) =
        min ((2 : ℚ) ^ a + randomnessOf k) ((rmd : ℚ) + randomnessOf k)) ∧
    (∀ (statusAt : Nat → Nat) (retries rmd : Nat),
      (fetchLoop statusAt retries rmd (randomnessOf k)).sleeps =
        (List.range (fetchLoop statusAt retries rmd (randomnessOf k)).sleeps.length).map
          (fun a => sleepDelay a rmd (randomnessOf k))) := by
  have h0 : 0 ≤ randomnessOf k := by
    unfold randomnessOf
    positivity
  have h1 : randomnessOf k ≤ 1 := by
    unfold randomnessOf
    rw [div_le_one (by norm_num)]
    exact_mod_cast hk
  exact ⟨⟨h0, h1⟩, fun a rmd => sleepDelay_eq_min _ h0 h1 a rmd,
    fun s retries rmd => fetchLoop_sleeps s retries rmd _⟩

theorem C1_backoff_delay_witness :
    sleepDelay 2 12 (randomnessOf 500) =
      min ((2 : ℚ) ^ 2 + randomnessOf 500) ((12 : ℚ) + randomnessOf 500) :=
  (C1_backoff_delay 500 (by norm_num)).2.1 2 12

/-! ### Claim C2 -/

/-- C2: for `N` consecutive 429 responses followed by any non-429 status
`s`, one `api_query` call issues exactly `min (N + 1) api_retries`
requests — any non-429 status (2xx, 4xx other than 429, 5xx) breaks the
retry loop immediately after the request that received it; moreover the
inter-request backoff delay is monotone non-decreasing in the attempt
index and capped at `retry_max_delay + jitter`. -/
theorem C2_retry_bound (N s retries rmd : Nat) (j : ℚ) (hs : s ≠ 429) (hj : 0 ≤ j) :
    (fetchLoop (fun n => if n < N then 429 else s) retries rmd j).requests =
      min (N + 1) retries ∧
    (∀ a, sleepDelay a rmd j ≤ sleepDelay (a + 1) rmd j) ∧
    (∀ a, sleepDelay a rmd j ≤ (rmd : ℚ) + j) := by
  refine ⟨?_, fun a => sleepDelay_mono j hj a rmd, fun a => sleepDelay_le_cap j hj a rmd⟩
  have h := fetchLoopAux_requests_pattern N s hs rmd j retries 0 none (Nat.zero_le N)
  simpa [fetchLoop] using h

theorem C2_retry_bound_witness :
    (fetchLoop (fun n => if n < 3 then 429 else 200) 5 12 (1 / 2)).requests =
      min (3 + 1) 5 :=
  (C2_retry_bound 3 200 5 12 (1 / 2) (by decide) (by norm_num)).1

/-! ### Claim C3 -/

/-- C3: provided the loop runs at least once (`api_retries ≥ 1`), the
final response — received at attempt `i`, the index of the last request —
is classified exactly: status 200/201 returns the JSON-decoded body of
that attempt; status 404/204 returns the absent outcome (`nothing` in
both cases, so a 404 and a 204 yield identical client-level results); any
other status, including a 429 still present after all retries are
exhausted, aborts via `fail_json` with a message embedding the HTTP
method and path and carrying the raw `fetch_url` info dict of the final
attempt. -/
theorem C3_classification {β γ ι : Type} (infos : Nat → ι) (status : ι → Nat)
    (bodies : Nat → β) (from_json : β → γ) (retries rmd : Nat) (j : ℚ)
    (method path : String) (hr : 1 ≤ retries) :
    ∃ i, (fetchLoop (fun n => status (infos n)) retries rmd j).finalIdx = some i ∧
      i + 1 = (fetchLoop (fun n => status (infos n)) retries rmd j).requests ∧
      ((status (infos i) = 200 ∨ status (infos i) = 201) →
        api_query_http infos status bodies from_json retries rmd j method path =
          .json (from_json (bodies i))) ∧
      ((status (infos i) = 404 ∨ status (infos i) = 204) →
        api_query_http infos status bodies from_json retries rmd j method path =
          .nothing) ∧
      (¬(status (infos i) = 200 ∨ status (infos i) = 201) →
        ¬(status (infos i) = 404 ∨ status (infos i) = 204) →
        api_query_http infos status bodies from_json retries rmd j method path =
          .failed (failMsg method path) (infos i)) ∧
      ((∀ n, status (infos n) = 429) →
        api_query_http infos status bodies from_json retries rmd j method path =
          .failed (failMsg method path) (infos (retries - 1))) ∧
      (∃ s1 s2 s3, failMsg method path = s1 ++ method ++ s2 ++ path ++ s3) := by
  obtain ⟨i, hi0, hidx, hreq⟩ :=
    fetchLoopAux_finalIdx (fun n => status (infos n)) rmd j retries 0 none hr
  have hidx' : (fetchLoop (fun n => status (infos n)) retries rmd j).finalIdx = some i :=
    hidx
  have hreq' : (fetchLoop (fun n => status (infos n)) retries rmd j).requests + 0 = i + 1 :=
    hreq
  refine ⟨i, hidx', by omega, ?_, ?_, ?_, ?_,
    ⟨"Failure while calling the Vultr API v2 with ", " for \"", "\".", rfl⟩⟩
  · intro h
    simp only [api_query_http, hidx']
    rw [if_pos h]
  · intro h
    simp only [api_query_http, hidx']
    rw [if_neg (by omega), if_pos h]
  · intro h1 h2
    simp only [api_query_http, hidx']
    rw [if_neg h1, if_neg h2]
  · intro h429
    obtain ⟨f, rfl⟩ : ∃ f, retries = f + 1 := ⟨retries - 1, by omega⟩
    have hall := fetchLoopAux_all429 (fun n => status (infos n)) h429 rmd j f 0 none
    have hidx2 : (fetchLoop (fun n => status (infos n)) (f + 1) rmd j).finalIdx =
        some f := by
      have := hall.2
      simpa [fetchLoop] using this
    simp only [api_query_http, hidx2]
    have h429f : status (infos f) = 429 := h429 f
    rw [if_neg (by omega), if_neg (by omega)]
    simp

theorem C3_classification_witness :
    api_query_http (fun _ => 500) (fun s => s) (fun _ => "raw") (fun b => b)
      3 12 0 "GET" "/ssh-keys" = .failed (failMsg "GET" "/ssh-keys") 500 := by
  obtain ⟨i, hidx, _, _, _, hfail, _, _⟩ :=
    C3_classification (fun _ => (500 : Nat)) (fun s => s) (fun _ => "raw")
      (fun b => b) 3 12 0 "GET" "/ssh-keys" (by norm_num)
  exact hfail (by omega) (by omega)

/-! ### `is_diff` lemmas -/

/-- When every element of the proposed list supports the membership test
against the (present) current field, the element loop computes exactly
"some element is not contained". -/
theorem is_diff_elems_eq (resource : Resource) (k : String) (l : List Atom)
    (h : ∀ x ∈ l, (match dictGet resource k with
      | some c => (valMem x c).isSome
      | Option.none => false) = true) :
    is_diff_elems resource k l =
      some (l.any fun x =>
        valMem x ((dictGet resource k).getD Val.null) == some false) := by
  induction l with
  | nil => simp [is_diff_elems]
  | cons x xs ih =>
    have hx := h x (List.mem_cons_self x xs)
    cases hc : dictGet resource k with
    | none => rw [hc] at hx; simp at hx
    | some c =>
      rw [hc] at hx
      simp only at hx
      obtain ⟨b, hb⟩ := Option.isSome_iff_exists.mp hx
      cases b
      · simp only [is_diff_elems, hc, hb]
        simp [List.any_cons, hc, hb]
      · simp only [is_diff_elems, hc, hb]
        rw [ih (fun y hy => h y (List.mem_cons_of_mem x hy))]
        simp [List.any_cons, hc, hb]

/-- Under the totality precondition, `is_diff` agrees with the spec's
diff predicate. -/
theorem is_diff_eq_spec (data resource : Resource)
    (h : diffDefined data resource = true) :
    is_diff data resource = some (is_diff_spec data resource) := by
  induction data with
  | nil => simp [is_diff, is_diff_spec]
  | cons kv rest ih =>
    obtain ⟨k, v⟩ := kv
    have hsplit : diffKeyOk resource (k, v) = true ∧ diffDefined rest resource = true := by
      simpa [diffDefined] using h
    have hrest := ih hsplit.2
    cases v with
    | null =>
      simp only [is_diff]
      have hspec : is_diff_spec ((k, Val.null) :: rest) resource =
          is_diff_spec rest resource := by
        simp [is_diff_spec, List.any_cons]
      rw [hspec]
      exact hrest
    | list l =>
      have hl : ∀ x ∈ l, (match dictGet resource k with
          | some c => (valMem x c).isSome
          | Option.none => false) = true := by
        have := hsplit.1
        simpa [diffKeyOk, List.all_eq_true] using this
      by_cases hany : (l.any fun x =>
          valMem x ((dictGet resource k).getD Val.null) == some false) = true
      · simp only [is_diff, is_diff_elems_eq resource k l hl, hany]
        have hspec : is_diff_spec ((k, Val.list l) :: rest) resource = true := by
          simp [is_diff_spec, List.any_cons, hany]
        rw [hspec]
      · rw [Bool.not_eq_true] at hany
        simp only [is_diff, is_diff_elems_eq resource k l hl, hany]
        have hspec : is_diff_spec ((k, Val.list l) :: rest) resource =
            is_diff_spec rest resource := by
          simp [is_diff_spec, List.any_cons, hany]
        rw [hspec]
        exact hrest
    | atom a =>
      have hks : (dictGet resource k).isSome = true := by
        simpa [diffKeyOk] using hsplit.1
      obtain ⟨c, hc⟩ := Option.isSome_iff_exists.mp hks
      by_cases hcv : c = Val.atom a
      · simp only [is_diff, hc]
        rw [if_pos hcv]
        have hspec : is_diff_spec ((k, Val.atom a) :: rest) resource =
            is_diff_spec rest resource := by
          simp [is_diff_spec, List.any_cons, hc, hcv]
        rw [hspec]
        exact hrest
      · simp only [is_diff, hc]
        rw [if_neg hcv]
        have hspec : is_diff_spec ((k, Val.atom a) :: rest) resource = true := by
          simp [is_diff_spec, List.any_cons, hc, hcv]
        rw [hspec]

/-! ### Claim C4 -/

/-- C4: under the totality precondition (every managed key resolves and
supports the required tests), `is_diff` returns exactly the spec's
predicate: true iff some key of the body has a non-`None` value that is
either a list with an element not contained in the current field
(asymmetric containment — extra remote elements never trigger a diff) or
a scalar unequal to the current field; in particular, proposed
`["a","b"]` against current `["a","b","c"]` is not a diff, while
`["a","d"]` against `["a","b","c"]` is. -/
theorem C4_is_diff (data resource : Resource)
    (h : diffDefined data resource = true) :
    is_diff data resource = some (is_diff_spec data resource) ∧
    is_diff [("k", Val.list [Atom.str "a", Atom.str "b"])]
      [("k", Val.list [Atom.str "a", Atom.str "b", Atom.str "c"])] = some false ∧
    is_diff [("k", Val.list [Atom.str "a", Atom.str "d"])]
      [("k", Val.list [Atom.str "a", Atom.str "b", Atom.str "c"])] = some true :=
  ⟨is_diff_eq_spec data resource h, rfl, rfl⟩

theorem C4_is_diff_witness :
    diffDefined [("k", Val.list [Atom.str "a", Atom.str "d"])]
      [("k", Val.list [Atom.str "a", Atom.str "b", Atom.str "c"])] = true ∧
    is_diff [("k", Val.list [Atom.str "a", Atom.str "d"])]
      [("k", Val.list [Atom.str "a", Atom.str "b", Atom.str "c"])] =
      some (is_diff_spec [("k", Val.list [Atom.str "a", Atom.str "d"])]
        [("k", Val.list [Atom.str "a", Atom.str "b", Atom.str "c"])]) :=
  ⟨rfl, (C4_is_diff [("k", Val.list [Atom.str "a", Atom.str "d"])]
    [("k", Val.list [Atom.str "a", Atom.str "b", Atom.str "c"])] rfl).1⟩

/-! ### Claim C10 -/

/-- C10, counterexample to the claim as stated: the non-`None` update key
`"b"` is missing from the resource, yet `is_diff` does not fail — the
earlier key `"a"` already differs, and the short-circuit return of `True`
happens before the missing key is ever looked up. -/
theorem C10_counterexample :
    dictGet [("a", Val.atom (Atom.str "z"))] "b" = Option.none ∧
    is_diff [("a", Val.atom (Atom.str "x")), ("b", Val.atom (Atom.str "y"))]
      [("a", Val.atom (Atom.str "z"))] = some true :=
  ⟨rfl, rfl⟩

/-- C10 (amended): `is_diff` is exception-free under the precondition
that every non-`None` key resolves in the resource with membership
support for list elements; and when evaluation actually reaches a
non-`None` key missing from the resource — that is, no earlier key of
the body already classified the update as different — the `resource[key]`
lookup fails (modelled `none`) instead of counting the missing field as a
diff. (For a list value the lookup happens inside the element loop, so a
missing key is only reached when the list is non-empty.) -/
theorem C10_totality (data pre post resource : Resource) (k : String) (v : Val) :
    (diffDefined data resource = true → (is_diff data resource).isSome = true) ∧
    (v ≠ Val.null → (∀ l, v = Val.list l → l ≠ []) →
      dictGet resource k = Option.none →
      is_diff pre resource = some false →
      is_diff (pre ++ (k, v) :: post) resource = Option.none) := by
  constructor
  · intro h
    rw [is_diff_eq_spec data resource h]
    rfl
  · intro hv hvl hnone
    induction pre with
    | nil =>
      intro _
      simp only [List.nil_append]
      cases v with
      | null => exact absurd rfl hv
      | atom a => simp only [is_diff, hnone]
      | list l =>
        cases l with
        | nil => exact absurd rfl (hvl [] rfl)
        | cons x xs => simp only [is_diff, is_diff_elems, hnone]
    | cons kv0 pre' ih =>
      intro hpre
      obtain ⟨k0, v0⟩ := kv0
      cases v0 with
      | null =>
        simp only [is_diff] at hpre
        simp only [List.cons_append, is_diff]
        exact ih hpre
      | list l0 =>
        simp only [is_diff] at hpre
        simp only [List.cons_append, is_diff]
        cases hel : is_diff_elems resource k0 l0 with
        | none => simp [hel] at hpre
        | some b =>
          cases b
          · simp only [hel] at hpre ⊢
            exact ih hpre
          · simp [hel] at hpre
      | atom a0 =>
        simp only [is_diff] at hpre
        simp only [List.cons_append, is_diff]
        cases hg : dictGet resource k0 with
        | none => simp [hg] at hpre
        | some c0 =>
          simp only [hg] at hpre ⊢
          by_cases hcv : c0 = Val.atom a0
          · rw [if_pos hcv] at hpre
            rw [if_pos hcv]
            exact ih hpre
          · rw [if_neg hcv] at hpre
            simp at hpre

theorem C10_totality_witness :
    is_diff [("a", Val.atom (Atom.str "z")), ("b", Val.atom (Atom.str "y"))]
      [("a", Val.atom (Atom.str "z"))] = Option.none :=
  (C10_totality [] [("a", Val.atom (Atom.str "z"))] []
      [("a", Val.atom (Atom.str "z"))] "b" (Val.atom (Atom.str "y"))).2
    (by simp) (fun l hl => nomatch hl) rfl rfl

/-! ### Reconciler lemmas: request logs -/

/-- The id branch of `query` issues exactly one GET request. -/
theorem query_by_id_log (ctx : Ctx) (t : Transport) (rid : String) :
    (query_by_id ctx t rid).1 =
      [mkReq ctx (ctx.desc.resource_path ++ (if rid ≠ "" then "/" ++ rid else rid))
        "GET" Option.none] := by
  simp only [query_by_id, api_query]
  repeat' split
  all_goals rfl

/-- `query_list` issues exactly one GET request. -/
theorem query_list_log (ctx : Ctx) (t : Transport) :
    (query_list ctx t).1 = [mkReq ctx ctx.desc.resource_path "GET" Option.none] := by
  simp only [query_list, api_query]
  repeat' split
  all_goals rfl

/-- Every request issued by the name scan is a GET. -/
theorem queryScan_methods (ctx : Ctx) (t : Transport) (rs : List Resource) :
    ∀ r ∈ (queryScan ctx t rs).1, r.method = "GET" := by
  induction rs with
  | nil => intro r hr; simp [queryScan] at hr
  | cons x xs ih =>
    intro r hr
    simp only [queryScan] at hr
    split at hr
    · split at hr
      · split at hr
        · rw [query_by_id_log] at hr
          simp at hr
          subst hr
          rfl
        · simp at hr
      · simp at hr
    · exact ih r hr

/-- Every request issued by `query` is a GET. -/
theorem query_methods (ctx : Ctx) (t : Transport) (x : Option String) :
    ∀ r ∈ (query ctx t x).1, r.method = "GET" := by
  intro r hr
  cases x with
  | some rid =>
    simp only [query] at hr
    rw [query_by_id_log] at hr
    simp at hr
    subst hr
    rfl
  | none =>
    simp only [query] at hr
    split at hr
    · next log rs heq =>
      simp only at hr
      rw [List.mem_append] at hr
      rcases hr with hr | hr
      · have hl : log = (query_list ctx t).1 := by rw [heq]
        rw [hl, query_list_log] at hr
        simp at hr
        subst hr
        rfl
      · exact queryScan_methods ctx t rs r hr
    · next log heq =>
      have hl : log = (query_list ctx t).1 := by rw [heq]
      rw [hl, query_list_log] at hr
      simp at hr
      subst hr
      rfl

/-! ### Reconciler lemmas: check-mode invariance of reads -/

/-- Changing only `check_mode` leaves the single-resource query — its
requests and its result — unchanged. -/
theorem query_by_id_check (desc : Descriptor) (p : Params) (b : Bool)
    (t : Transport) (rid : String) :
    query_by_id ⟨desc, { p with check_mode := b }⟩ t rid =
      query_by_id ⟨desc, p⟩ t rid := rfl

/-- Changing only `check_mode` leaves `query_list` unchanged. -/
theorem query_list_check (desc : Descriptor) (p : Params) (b : Bool) (t : Transport) :
    query_list ⟨desc, { p with check_mode := b }⟩ t = query_list ⟨desc, p⟩ t := rfl

/-- Changing only `check_mode` leaves the name scan unchanged. -/
theorem queryScan_check (desc : Descriptor) (p : Params) (b : Bool)
    (t : Transport) (rs : List Resource) :
    queryScan ⟨desc, { p with check_mode := b }⟩ t rs =
      queryScan ⟨desc, p⟩ t rs := by
  induction rs with
  | nil => rfl
  | cons x xs ih =>
    simp only [queryScan]
    split
    · rfl
    · exact ih

/-- Changing only `check_mode` leaves `query` unchanged. -/
theorem query_check (desc : Descriptor) (p : Params) (b : Bool)
    (t : Transport) (x : Option String) :
    query ⟨desc, { p with check_mode := b }⟩ t x = query ⟨desc, p⟩ t x := by
  cases x with
  | some rid => rfl
  | none =>
    simp only [query]
    rw [show query_list ⟨desc, { p with check_mode := b }⟩ t = query_list ⟨desc, p⟩ t from rfl]
    split
    · next log rs heq =>
      rw [queryScan_check]
    · rfl

/-! ### Reconciler lemmas: `create`, `update`, `absent` shapes -/

/-- `create` in check mode: no request and an empty resource, with the
full `changed`/`diff` bookkeeping still applied. -/
theorem create_check_mode (ctx : Ctx) (t : Transport) (st : RState)
    (hc : ctx.params.check_mode = true) :
    create ctx t st = ([], .ok (createSt ctx st, .pres [])) := by
  simp only [create, hc, if_true]

/-- Whenever `create` returns normally, the result state it produced is
the canonical one: `changed := true`, empty before-diff, the create body
as after-diff — independent of check mode and of the transport. -/
theorem create_ok_state (ctx : Ctx) (t : Transport) (st : RState)
    (log : List Req) (stN : RState) (v : PyRes)
    (h : create ctx t st = (log, .ok (stN, v))) :
    stN = createSt ctx st := by
  simp only [create] at h
  repeat' split at h
  all_goals simp_all

/-- `update` when the diff predicate is false: no request, resource and
result state unchanged. -/
theorem update_no_diff (ctx : Ctx) (t : Transport) (st : RState) (resource : Resource)
    (h : is_diff (updateData ctx) resource = some false) :
    update ctx t st resource = ([], .ok (st, resource)) := by
  simp only [update, h]

/-- `update` in check mode when a diff exists: no request, the
`changed`/`diff` bookkeeping applied, and the old resource returned. -/
theorem update_check_mode (ctx : Ctx) (t : Transport) (st : RState) (resource : Resource)
    (hd : is_diff (updateData ctx) resource = some true)
    (hc : ctx.params.check_mode = true) :
    update ctx t st resource = ([], .ok (updateSt ctx st resource, resource)) := by
  simp only [update, hd, hc, if_true]

/-- `update` never issues a request in check mode, whatever the diff. -/
theorem update_check_log (ctx : Ctx) (t : Transport) (st : RState) (resource : Resource)
    (hc : ctx.params.check_mode = true) :
    (update ctx t st resource).1 = [] := by
  simp only [update, hc]
  repeat' split
  all_goals simp_all

/-- `update` outside check mode with a diff: the write goes to
`resource_path + "/" + resource[id_key]` with the update method and body,
its response is discarded (any non-failure outcome yields the same
result), and the returned resource is the one delivered by the re-query
by id. -/
theorem update_write (ctx : Ctx) (t : Transport) (st : RState) (resource : Resource)
    (idv : Val) (l2 : List Req) (r2 : Resource)
    (hd : is_diff (updateData ctx) resource = some true)
    (hc : ctx.params.check_mode = false)
    (hid : dictGet resource ctx.desc.resource_key_id = some idv)
    (hw : t (mkReq ctx (ctx.desc.resource_path ++ "/" ++ idv.pyStr)
      ctx.desc.resource_update_method (some (updateData ctx))) ≠ .failure)
    (hq : query_by_id ctx t idv.pyStr = (l2, .ok r2)) :
    update ctx t st resource =
      (mkReq ctx (ctx.desc.resource_path ++ "/" ++ idv.pyStr)
          ctx.desc.resource_update_method (some (updateData ctx)) :: l2,
        .ok (updateSt ctx st resource, r2)) := by
  simp only [update, hd, hc, api_query, hid]
  cases hw' : t (mkReq ctx (ctx.desc.resource_path ++ "/" ++ idv.pyStr)
      ctx.desc.resource_update_method (some (updateData ctx))) with
  | failure => exact absurd hw' hw
  | body env => simp [hq]
  | nothing => simp [hq]

/-- Whenever `update` returns normally, either there was no diff (state
and resource unchanged) or there was one (state is the canonical updated
one). -/
theorem update_ok_state (ctx : Ctx) (t : Transport) (st : RState) (resource : Resource)
    (log : List Req) (stN : RState) (v : Resource)
    (h : update ctx t st resource = (log, .ok (stN, v))) :
    (is_diff (updateData ctx) resource = some false ∧ stN = st ∧ v = resource) ∨
    (is_diff (updateData ctx) resource = some true ∧ stN = updateSt ctx st resource) := by
  simp only [update] at h
  repeat' split at h
  all_goals simp_all
  all_goals (obtain ⟨h1, h2, h3⟩ := h; subst h3; exact h2.symm)

/-- `absent` when the resource does not exist: the query log only, a
result with `changed = false` and an empty payload and empty diffs. -/
theorem absent_not_found (ctx : Ctx) (t : Transport) (log : List Req)
    (hq : query ctx t Option.none = (log, .ok [])) :
    absent ctx t = (log, .exited ⟨false, ctx.desc.namespaceKey, .pres [], [], [],
      ⟨ctx.params.api_timeout, ctx.params.api_retries,
        ctx.params.api_retry_max_delay, ctx.params.api_endpoint⟩⟩) := by
  simp only [absent, hq]
  rfl

/-- `absent` on an existing resource in check mode: no write request, but
`changed = true`, the full prior snapshot as before-diff and an empty
after-diff. -/
theorem absent_found_check (ctx : Ctx) (t : Transport) (log : List Req)
    (resource : Resource)
    (hq : query ctx t Option.none = (log, .ok resource))
    (hne : resource ≠ [])
    (hc : ctx.params.check_mode = true) :
    absent ctx t = (log, .exited ⟨true, ctx.desc.namespaceKey, .pres resource,
      resource, [],
      ⟨ctx.params.api_timeout, ctx.params.api_retries,
        ctx.params.api_retry_max_delay, ctx.params.api_endpoint⟩⟩) := by
  simp only [absent, hq, hc, if_true]
  rw [if_neg hne]
  rfl

/-- `absent` on an existing resource outside check mode: one DELETE to
`resource_path + "/" + resource[id_key]` after the query, and the same
`changed`/`diff` bookkeeping. -/
theorem absent_found_write (ctx : Ctx) (t : Transport) (log : List Req)
    (resource : Resource) (idv : Val)
    (hq : query ctx t Option.none = (log, .ok resource))
    (hne : resource ≠ [])
    (hc : ctx.params.check_mode = false)
    (hid : dictGet resource ctx.desc.resource_key_id = some idv)
    (hw : t (mkReq ctx (ctx.desc.resource_path ++ "/" ++ idv.pyStr)
      "DELETE" Option.none) ≠ .failure) :
    absent ctx t =
      (log ++ [mkReq ctx (ctx.desc.resource_path ++ "/" ++ idv.pyStr) "DELETE" Option.none],
        .exited ⟨true, ctx.desc.namespaceKey, .pres resource, resource, [],
          ⟨ctx.params.api_timeout, ctx.params.api_retries,
            ctx.params.api_retry_max_delay, ctx.params.api_endpoint⟩⟩) := by
  simp only [absent, hq, hc, api_query, hid]
  rw [if_neg hne]
  cases hw' : t (mkReq ctx (ctx.desc.resource_path ++ "/" ++ idv.pyStr)
      "DELETE" Option.none) with
  | failure => exact absurd hw' hw
  | body env => rfl
  | nothing => rfl

/-- In check mode `absent` issues exactly the query's requests. -/
theorem absent_check_log (ctx : Ctx) (t : Transport)
    (hc : ctx.params.check_mode = true) :
    (absent ctx t).1 = (query ctx t Option.none).1 := by
  simp only [absent, hc]
  repeat' split
  all_goals simp_all

/-- `absent` aborts if the initial query aborts. -/
theorem absent_query_err (ctx : Ctx) (t : Transport) (log : List Req)
    (hq : query ctx t Option.none = (log, .err)) :
    absent ctx t = (log, .aborted) := by
  simp only [absent, hq]

/-- `absent` aborts on the `KeyError` of a found resource lacking the id
key (outside check mode). -/
theorem absent_id_missing (ctx : Ctx) (t : Transport) (log : List Req)
    (resource : Resource)
    (hq : query ctx t Option.none = (log, .ok resource))
    (hne : resource ≠ [])
    (hc : ctx.params.check_mode = false)
    (hid : dictGet resource ctx.desc.resource_key_id = Option.none) :
    absent ctx t = (log, .aborted) := by
  simp only [absent, hq, hc, hid]
  rw [if_neg hne]
  rfl

/-- `absent` aborts when the DELETE itself fails terminally. -/
theorem absent_delete_failure (ctx : Ctx) (t : Transport) (log : List Req)
    (resource : Resource) (idv : Val)
    (hq : query ctx t Option.none = (log, .ok resource))
    (hne : resource ≠ [])
    (hc : ctx.params.check_mode = false)
    (hid : dictGet resource ctx.desc.resource_key_id = some idv)
    (hw : t (mkReq ctx (ctx.desc.resource_path ++ "/" ++ idv.pyStr)
      "DELETE" Option.none) = .failure) :
    absent ctx t =
      (log ++ [mkReq ctx (ctx.desc.resource_path ++ "/" ++ idv.pyStr) "DELETE" Option.none],
        .aborted) := by
  simp only [absent, hq, hc, api_query, hid, hw]
  rw [if_neg hne]
  rfl

/-! ### `is_diff` on faithfully stored state -/

/-- Every element of a list is a member of that same list, so the element
loop of `is_diff` reports no difference against a verbatim-stored field. -/
theorem is_diff_elems_self (resource : Resource) (k : String) (l : List Atom)
    (hk : dictGet resource k = some (Val.list l)) :
    ∀ l2 : List Atom, (∀ x ∈ l2, x ∈ l) → is_diff_elems resource k l2 = some false := by
  intro l2
  induction l2 with
  | nil => intro _; rfl
  | cons x xs ih =>
    intro hsub
    have hx : x ∈ l := hsub x (List.mem_cons_self x xs)
    have hd : decide (x ∈ l) = true := decide_eq_true hx
    simp only [is_diff_elems, hk, valMem, hd]
    exact ih (fun y hy => hsub y (List.mem_cons_of_mem x hy))

/-- A proposed body whose non-`None` values are stored verbatim in the
resource yields no diff: `None` keys are skipped, lists are checked by
membership of each own element, scalars by equality. -/
theorem is_diff_faithful (data resource : Resource)
    (h : ∀ kv ∈ data, kv.2 ≠ Val.null → dictGet resource kv.1 = some kv.2) :
    is_diff data resource = some false := by
  induction data with
  | nil => rfl
  | cons kv rest ih =>
    obtain ⟨k, v⟩ := kv
    have hrest := ih (fun y hy hn => h y (List.mem_cons_of_mem _ hy) hn)
    cases v with
    | null =>
      simp only [is_diff]
      exact hrest
    | atom a =>
      have hk := h (k, Val.atom a) (List.mem_cons_self _ _) (by simp)
      simp only at hk
      simp only [is_diff, hk]
      rw [if_pos trivial]
      exact hrest
    | list l =>
      have hk := h (k, Val.list l) (List.mem_cons_self _ _) (by simp)
      have helems := is_diff_elems_self resource k l hk l (fun x hx => hx)
      simp only [is_diff, helems]
      exact hrest

/-! ### Echo preservation -/

/-- Every result emitted by `absent` carries the `vultr_api` echo block
installed by `__init__`, untouched. -/
theorem absent_vultr_api (ctx : Ctx) (t : Transport) (log : List Req) (f : FinalResult)
    (h : absent ctx t = (log, .exited f)) :
    f.vultr_api = (initResult ctx.params).vultr_api := by
  simp only [absent] at h
  repeat' split at h
  all_goals simp_all [get_result]
  all_goals (obtain ⟨h1, h2⟩ := h; rw [← h2])

/-- Every result emitted by `present` carries the `vultr_api` echo block
installed by `__init__`, untouched. -/
theorem present_vultr_api (ctx : Ctx) (t : Transport) (log : List Req) (f : FinalResult)
    (h : present ctx t = (log, .exited f)) :
    f.vultr_api = (initResult ctx.params).vultr_api := by
  rcases hq : query ctx t Option.none with ⟨qlog, qres⟩
  simp only [present, hq] at h
  cases qres with
  | err => exact absurd h (by simp)
  | ok resource =>
    simp only at h
    by_cases hres : resource = []
    · rw [if_pos hres] at h
      rcases hcr : create ctx t (initResult ctx.params) with ⟨clog, cres'⟩
      rw [hcr] at h
      cases cres' with
      | err => exact absurd h (by simp)
      | ok pr =>
        obtain ⟨st2, cres⟩ := pr
        have hst2 : st2 = createSt ctx (initResult ctx.params) :=
          create_ok_state ctx t (initResult ctx.params) clog st2 cres hcr
        simp only at h
        split at h
        · split at h
          · split at h
            · split at h
              · simp only [Prod.mk.injEq, RunOutcome.exited.injEq] at h
                rw [← h.2, hst2]
                rfl
              · exact absurd h (by simp)
            · exact absurd h (by simp)
          · exact absurd h (by simp)
        · simp only [Prod.mk.injEq, RunOutcome.exited.injEq] at h
          rw [← h.2, hst2]
          rfl
    · rw [if_neg hres] at h
      rcases hup : update ctx t (initResult ctx.params) resource with ⟨ulog, ures⟩
      rw [hup] at h
      cases ures with
      | err => exact absurd h (by simp)
      | ok pr =>
        obtain ⟨st2, r2⟩ := pr
        have hst2 := update_ok_state ctx t (initResult ctx.params) resource ulog st2 r2 hup
        simp only [Prod.mk.injEq, RunOutcome.exited.injEq] at h
        rcases hst2 with ⟨_, hst, _⟩ | ⟨_, hst⟩
        · rw [← h.2, hst]
          rfl
        · rw [← h.2, hst]
          rfl

/-! ### Claim C5 -/

/-- C5: with check mode (dry run) enabled, `create` and `update` issue no
requests at all and `absent` issues only GET (read) requests — zero write
requests (POST, PATCH/PUT, DELETE) reach the transport; and whenever the
same invocation without check mode returns normally, the check-mode
invocation computes exactly the same `changed` flag and
`diff.before`/`diff.after`. -/
theorem C5_dry_run (desc : Descriptor) (p : Params) (t : Transport)
    (st : RState) (resource : Resource) (hc : p.check_mode = true) :
    ((create ⟨desc, p⟩ t st).1 = [] ∧
      (update ⟨desc, p⟩ t st resource).1 = [] ∧
      (∀ r ∈ (absent ⟨desc, p⟩ t).1, r.method = "GET")) ∧
    ((∀ log stN v,
        create ⟨desc, { p with check_mode := false }⟩ t st = (log, .ok (stN, v)) →
        create ⟨desc, p⟩ t st = ([], .ok (stN, .pres []))) ∧
      (∀ log stN v,
        update ⟨desc, { p with check_mode := false }⟩ t st resource = (log, .ok (stN, v)) →
        update ⟨desc, p⟩ t st resource = ([], .ok (stN, resource))) ∧
      (∀ log f,
        absent ⟨desc, { p with check_mode := false }⟩ t = (log, .exited f) →
        ∃ log2 f2, absent ⟨desc, p⟩ t = (log2, .exited f2) ∧
          f2.changed = f.changed ∧ f2.diffBefore = f.diffBefore ∧
          f2.diffAfter = f.diffAfter)) := by
  refine ⟨⟨?_, ?_, ?_⟩, ?_, ?_, ?_⟩
  · rw [create_check_mode ⟨desc, p⟩ t st hc]
  · exact update_check_log ⟨desc, p⟩ t st resource hc
  · intro r hr
    rw [absent_check_log ⟨desc, p⟩ t hc] at hr
    exact query_methods ⟨desc, p⟩ t Option.none r hr
  · intro log stN v h
    have hst := create_ok_state _ t st log stN v h
    rw [create_check_mode ⟨desc, p⟩ t st hc, hst]
    rfl
  · intro log stN v h
    rcases update_ok_state _ t st resource log stN v h with ⟨hd, hst, _⟩ | ⟨hd, hst⟩
    · rw [hst]
      exact update_no_diff ⟨desc, p⟩ t st resource hd
    · rw [hst]
      exact update_check_mode ⟨desc, p⟩ t st resource hd hc
  · intro log f h
    rcases hq : query ⟨desc, p⟩ t Option.none with ⟨qlog, qres⟩
    have hqN : query ⟨desc, { p with check_mode := false }⟩ t Option.none = (qlog, qres) :=
      (query_check desc p false t Option.none).trans hq
    cases qres with
    | err =>
      rw [absent_query_err _ t qlog hqN] at h
      simp at h
    | ok r =>
      by_cases hr : r = []
      · subst hr
        rw [absent_not_found _ t qlog hqN] at h
        simp only [Prod.mk.injEq, RunOutcome.exited.injEq] at h
        exact ⟨qlog, _, absent_not_found ⟨desc, p⟩ t qlog hq,
          by rw [← h.2], by rw [← h.2], by rw [← h.2]⟩
      · cases hid : dictGet r desc.resource_key_id with
        | none =>
          rw [absent_id_missing _ t qlog r hqN hr rfl hid] at h
          simp at h
        | some idv =>
          by_cases hfail : t (mkReq ⟨desc, { p with check_mode := false }⟩
              (desc.resource_path ++ "/" ++ idv.pyStr) "DELETE" Option.none) = .failure
          · rw [absent_delete_failure _ t qlog r idv hqN hr rfl hid hfail] at h
            simp at h
          · rw [absent_found_write _ t qlog r idv hqN hr rfl hid hfail] at h
            simp only [Prod.mk.injEq, RunOutcome.exited.injEq] at h
            exact ⟨qlog, _, absent_found_check ⟨desc, p⟩ t qlog r hq hr hc,
              by rw [← h.2], by rw [← h.2], by rw [← h.2]⟩

theorem C5_dry_run_witness :
    (create ⟨sampleDesc, sampleParamsCheck⟩ sampleTransport (initResult sampleParamsCheck)).1 = [] :=
  (C5_dry_run sampleDesc sampleParamsCheck sampleTransport (initResult sampleParamsCheck)
    sampleResource rfl).1.1

/-! ### Claim C6 -/

/-- C6: `update(resource)` — if the diff predicate is false, the resource
is returned unchanged with the result state (including the prior
`changed` value) untouched and no request issued; if it is true and check
mode is off, the result state becomes `updateSt` (`changed := true`,
`diff.before` = full current snapshot, `diff.after` = snapshot merged
with the update body), the write is sent to
`resource_path + "/" + resource[id_key]` with the configured update
method and body, its response is discarded (any non-failure response
yields the same outcome), and the returned value is the one delivered by
the subsequent re-query by id. -/
theorem C6_update (ctx : Ctx) (t : Transport) (st : RState) (resource : Resource) :
    (is_diff (updateData ctx) resource = some false →
      update ctx t st resource = ([], .ok (st, resource))) ∧
    (∀ idv l2 r2,
      is_diff (updateData ctx) resource = some true →
      ctx.params.check_mode = false →
      dictGet resource ctx.desc.resource_key_id = some idv →
      t (mkReq ctx (ctx.desc.resource_path ++ "/" ++ idv.pyStr)
        ctx.desc.resource_update_method (some (updateData ctx))) ≠ .failure →
      query_by_id ctx t idv.pyStr = (l2, .ok r2) →
      update ctx t st resource =
        (mkReq ctx (ctx.desc.resource_path ++ "/" ++ idv.pyStr)
            ctx.desc.resource_update_method (some (updateData ctx)) :: l2,
          .ok (updateSt ctx st resource, r2))) :=
  ⟨fun h => update_no_diff ctx t st resource h,
    fun idv l2 r2 hd hc hid hw hq =>
      update_write ctx t st resource idv l2 r2 hd hc hid hw hq⟩

theorem C6_update_witness :
    update ⟨sampleDesc, sampleParams⟩ sampleTransport (initResult sampleParams)
      sampleResource = ([], .ok (initResult sampleParams, sampleResource)) :=
  (C6_update ⟨sampleDesc, sampleParams⟩ sampleTransport (initResult sampleParams)
    sampleResource).1 rfl

/-! ### Claim C7 -/

/-- C7: `absent()` — a missing resource yields `changed = false` with an
empty payload and empty diffs; an existing one yields `changed = true`
with the full prior snapshot as `diff.before` and empty `diff.after`,
plus (outside check mode) exactly one DELETE to
`resource_path + "/" + resource[id_key]`; every such run finalizes
through the result assembly (`exited`) exactly once. -/
theorem C7_absent (ctx : Ctx) (t : Transport) :
    (∀ log, query ctx t Option.none = (log, .ok []) →
      absent ctx t = (log, .exited ⟨false, ctx.desc.namespaceKey, .pres [], [], [],
        ⟨ctx.params.api_timeout, ctx.params.api_retries,
          ctx.params.api_retry_max_delay, ctx.params.api_endpoint⟩⟩)) ∧
    (∀ log resource idv,
      query ctx t Option.none = (log, .ok resource) → resource ≠ [] →
      ctx.params.check_mode = false →
      dictGet resource ctx.desc.resource_key_id = some idv →
      t (mkReq ctx (ctx.desc.resource_path ++ "/" ++ idv.pyStr)
        "DELETE" Option.none) ≠ .failure →
      absent ctx t =
        (log ++ [mkReq ctx (ctx.desc.resource_path ++ "/" ++ idv.pyStr)
          "DELETE" Option.none],
          .exited ⟨true, ctx.desc.namespaceKey, .pres resource, resource, [],
            ⟨ctx.params.api_timeout, ctx.params.api_retries,
              ctx.params.api_retry_max_delay, ctx.params.api_endpoint⟩⟩)) ∧
    (∀ log resource,
      query ctx t Option.none = (log, .ok resource) → resource ≠ [] →
      ctx.params.check_mode = true →
      absent ctx t = (log, .exited ⟨true, ctx.desc.namespaceKey, .pres resource,
        resource, [],
        ⟨ctx.params.api_timeout, ctx.params.api_retries,
          ctx.params.api_retry_max_delay, ctx.params.api_endpoint⟩⟩)) :=
  ⟨fun log hq => absent_not_found ctx t log hq,
    fun log resource idv hq hne hc hid hw =>
      absent_found_write ctx t log resource idv hq hne hc hid hw,
    fun log resource hq hne hc => absent_found_check ctx t log resource hq hne hc⟩

theorem C7_absent_witness :
    absent ⟨sampleDesc, sampleParams⟩ emptyTransport =
      ([mkReq ⟨sampleDesc, sampleParams⟩ "/ssh-keys" "GET" Option.none],
        .exited ⟨false, "vultr_ssh_key", .pres [], [], [],
          ⟨60, 5, 12, "https://api.vultr.com/v2"⟩⟩) :=
  (C7_absent ⟨sampleDesc, sampleParams⟩ emptyTransport).1
    [mkReq ⟨sampleDesc, sampleParams⟩ "/ssh-keys" "GET" Option.none] rfl

/-! ### Claim C8 -/

/-- C8: idempotence of `present` against a drift-free, faithfully storing
remote API. For the second of two identical invocations: the query finds
a resource whose fields hold every non-`None` update parameter verbatim
(that is what the first invocation wrote and what a faithful API
returns), so `is_diff` is false, `present` emits `changed = false` with
the found resource, and it issues only GET requests; hence
`changed = true` can occur at most on the first invocation. -/
theorem C8_present_idempotent (ctx : Ctx) (t : Transport) (log : List Req) (r : Resource)
    (hq : query ctx t Option.none = (log, .ok r))
    (hne : r ≠ [])
    (hfaith : ∀ kv ∈ updateData ctx, kv.2 ≠ Val.null → dictGet r kv.1 = some kv.2) :
    present ctx t = (log, .exited ⟨false, ctx.desc.namespaceKey, .pres r, [], [],
      ⟨ctx.params.api_timeout, ctx.params.api_retries,
        ctx.params.api_retry_max_delay, ctx.params.api_endpoint⟩⟩) ∧
    (∀ req ∈ (present ctx t).1, req.method = "GET") := by
  have hdiff : is_diff (updateData ctx) r = some false := is_diff_faithful _ _ hfaith
  have hupd := update_no_diff ctx t (initResult ctx.params) r hdiff
  have hpres : present ctx t = (log, .exited ⟨false, ctx.desc.namespaceKey, .pres r, [], [],
      ⟨ctx.params.api_timeout, ctx.params.api_retries,
        ctx.params.api_retry_max_delay, ctx.params.api_endpoint⟩⟩) := by
    simp only [present, hq]
    rw [if_neg hne]
    simp only [hupd, List.append_nil]
    rfl
  refine ⟨hpres, ?_⟩
  intro req hreq
  rw [hpres] at hreq
  simp only at hreq
  have hqm := query_methods ctx t Option.none req
  rw [hq] at hqm
  exact hqm hreq

theorem C8_present_idempotent_witness :
    present ⟨sampleDesc, sampleParams⟩ sampleTransport =
      ([mkReq ⟨sampleDesc, sampleParams⟩ "/ssh-keys" "GET" Option.none],
        .exited ⟨false, "vultr_ssh_key", .pres sampleResource, [], [],
          ⟨60, 5, 12, "https://api.vultr.com/v2"⟩⟩) :=
  (C8_present_idempotent ⟨sampleDesc, sampleParams⟩ sampleTransport
    [mkReq ⟨sampleDesc, sampleParams⟩ "/ssh-keys" "GET" Option.none] sampleResource
    rfl (by decide) (by decide)).1

/-! ### Claim C9 -/

/-- C9: every result emitted by `present` or `absent` carries the
`vultr_api` echo block consisting of exactly the endpoint, timeout,
retries and retry max delay; the initial result state (echo included) is
independent of `api_key`, so two invocations differing only in `api_key`
emit results with identical `vultr_api` content — the secret never
reaches the result. -/
theorem C9_api_echo (desc : Descriptor) (p : Params) (k : String) (t t2 : Transport) :
    (∀ log f, present ⟨desc, p⟩ t = (log, .exited f) →
      f.vultr_api = ⟨p.api_timeout, p.api_retries, p.api_retry_max_delay, p.api_endpoint⟩) ∧
    (∀ log f, absent ⟨desc, p⟩ t = (log, .exited f) →
      f.vultr_api = ⟨p.api_timeout, p.api_retries, p.api_retry_max_delay, p.api_endpoint⟩) ∧
    initResult { p with api_key := k } = initResult p ∧
    (∀ log1 f1 log2 f2,
      present ⟨desc, p⟩ t = (log1, .exited f1) →
      present ⟨desc, { p with api_key := k }⟩ t2 = (log2, .exited f2) →
      f1.vultr_api = f2.vultr_api) := by
  refine ⟨?_, ?_, rfl, ?_⟩
  · intro log f h
    exact present_vultr_api _ t log f h
  · intro log f h
    exact absent_vultr_api _ t log f h
  · intro log1 f1 log2 f2 h1 h2
    have e1 := present_vultr_api _ t log1 f1 h1
    have e2 := present_vultr_api _ t2 log2 f2 h2
    rw [e1, e2]
    rfl

theorem C9_api_echo_witness :
    (⟨false, "vultr_ssh_key", .pres sampleResource, [], [],
        ⟨60, 5, 12, "https://api.vultr.com/v2"⟩⟩ : FinalResult).vultr_api =
      ⟨sampleParams.api_timeout, sampleParams.api_retries,
        sampleParams.api_retry_max_delay, sampleParams.api_endpoint⟩ :=
  (C9_api_echo sampleDesc sampleParams "OTHERKEY" sampleTransport sampleTransport).1
    [mkReq ⟨sampleDesc, sampleParams⟩ "/ssh-keys" "GET" Option.none]
    ⟨false, "vultr_ssh_key", .pres sampleResource, [], [],
      ⟨60, 5, 12, "https://api.vultr.com/v2"⟩⟩
    (by decide)

end VultrV2
